import Mathlib

/-!
Verification of the cvxlab symbolic-to-numerical translation and coupled
solving engine, shallowly embedded from the Python sources:

* `src/esm/support/util_operators.py` — the numeric operators `shift`,
  `annuity` and `weibull_distribution`;
* `src/cvxlab/support/util.py` — coordinate algebra
  (`dict_cartesian_product`, `unpivot_dict_to_dataframe`,
  `filter_dataframe`, `find_non_allowed_types`);
* `src/cvxlab/support/util_text.py` — `extract_tokens_from_expression`;
* `src/cvxlab/backend/core.py` — the exogenous data fetch validation and
  the coupled-solve orchestrator `solve_integrated_problems`.

Machine floats are idealised as exact rationals (ℚ) where the computation
is algebraic, and as real numbers (ℝ) for the transcendental Weibull
density; `np.round` (round half to even) is modelled exactly.
-/

namespace CvxLab

/-! ## util_operators.shift

`shift(set_length, shift_value)` extracts two scalars `sl`, `sv` and
returns `np.eye(N=sl, k=-sv)`.  `np.eye(N, k)` is the N×N matrix whose
entry `(i, j)` is 1 exactly when `j = i + k`, else 0. -/

/-- `np.eye(N, k)` as an N×N rational matrix: ones on the k-th
off-diagonal (to the right of the main diagonal for `k > 0`). -/
def npEye (n : ℕ) (k : ℤ) : Matrix (Fin n) (Fin n) ℚ :=
  Matrix.of fun i j => if (j : ℤ) = (i : ℤ) + k then 1 else 0

/-- Embedding of `util_operators.shift`: after scalar extraction the
returned matrix value is `np.eye(N=sl, k=-sv)`. -/
def shift (sl : ℕ) (sv : ℤ) : Matrix (Fin sl) (Fin sl) ℚ :=
  npEye sl (-sv)

/-! ## util_operators.annuity

After scalar extraction (`pl` period length, `lt` lifetime) and
interest-rate checks, the code fills a `pl × pl` matrix:
entries with `col > row` stay 0; entries with `row - col < lt` get
`1/lt` when the column's rate is 0 and `r(1+r)^lt / ((1+r)^lt - 1)`
otherwise; all other entries stay 0.  The lifetime is modelled as a
natural number of periods (the exponent of the rational power in the
source formula). -/

/-- Embedding of the matrix fill loop of `util_operators.annuity`:
entry at (row, col) of the `pl × pl` annuity matrix. -/
def annuityEntry (lt : ℕ) (ir : ℕ → ℚ) (row col : ℕ) : ℚ :=
  if col > row then 0
  else if row - col < lt then
    (if ir col = 0 then 1 / (lt : ℚ)
     else ir col * (1 + ir col) ^ lt / ((1 + ir col) ^ lt - 1))
  else 0

/-- Embedding of `util_operators.annuity`: the `pl × pl` matrix built
from the interest-rate vector `ir` and lifetime `lt`. -/
def annuity (pl : ℕ) (lt : ℕ) (ir : ℕ → ℚ) : Matrix (Fin pl) (Fin pl) ℚ :=
  Matrix.of fun r c => annuityEntry lt ir (r : ℕ) (c : ℕ)

/-- The capital-recovery factor of the spec:
`r(1+r)^L / ((1+r)^L - 1)` for a nonzero rate `r`, `1/L` for rate 0. -/
def capitalRecoveryFactor (r : ℚ) (lt : ℕ) : ℚ :=
  if r = 0 then 1 / (lt : ℚ) else r * (1 + r) ^ lt / ((1 + r) ^ lt - 1)

/-! ## util_text.extract_tokens_from_expression

`re.findall(r"\b[a-zA-Z_][a-zA-Z0-9_]*\b", expression)` followed by a
whole-token skip-list filter.  With this pattern, a match is a maximal
run of word characters (`[a-zA-Z0-9_]`) whose first character is a
letter or underscore; a maximal run starting with a digit produces no
match at all (the leading `\b` cannot sit between two word characters). -/

/-- A regex word character: `[a-zA-Z0-9_]`. -/
def isWordChar (c : Char) : Bool :=
  ('a' ≤ c && c ≤ 'z') || ('A' ≤ c && c ≤ 'Z') ||
  ('0' ≤ c && c ≤ '9') || c = '_'

/-- The first-character class of the identifier rule: `[a-zA-Z_]`. -/
def isIdentFirstChar (c : Char) : Bool :=
  ('a' ≤ c && c ≤ 'z') || ('A' ≤ c && c ≤ 'Z') || c = '_'

/-- Splits a character list into its maximal runs of word characters
(`acc` holds the reversed current run). -/
def wordRunsAux : List Char → List Char → List (List Char)
  | [], acc => if acc.isEmpty then [] else [acc.reverse]
  | c :: cs, acc =>
    if isWordChar c then wordRunsAux cs (c :: acc)
    else if acc.isEmpty then wordRunsAux cs []
    else acc.reverse :: wordRunsAux cs []

/-- Maximal runs of word characters of a string. -/
def wordRuns (s : List Char) : List (List Char) :=
  wordRunsAux s []

/-- `re.findall(r"\b[a-zA-Z_][a-zA-Z0-9_]*\b", expression)`: the maximal
word-character runs whose first character is in `[a-zA-Z_]`. -/
def findIdentifiers (expression : String) : List String :=
  ((wordRuns expression.data).filter
    (fun run => match run with
      | [] => false
      | c :: _ => isIdentFirstChar c)).map (fun run => String.mk run)

/-- Embedding of `util_text.extract_tokens_from_expression`: tokenize,
then drop the tokens present in `tokens_to_skip` (whole-token
comparison, mirroring `token not in tokens_to_skip`). -/
def extract_tokens_from_expression
    (expression : String) (tokens_to_skip : List String) : List String :=
  (findIdentifiers expression).filter
    (fun token => decide (token ∉ tokens_to_skip))

/-! ## Coordinate algebra (`cvxlab/support/util.py`)

Python dicts preserve insertion order, so a `Dict[str, List[...]]` is
embedded as an association list.  A pandas `DataFrame` is embedded as a
column-name list plus a row list, each row aligned with the columns. -/

/-- A pandas DataFrame: named columns and rows of cells. -/
structure DataFrame (α : Type) where
  columns : List String
  rows : List (List α)
deriving DecidableEq, Repr

/-- `itertools.product(*value_lists)`: all combinations in standard
product order, the last list varying fastest. -/
def listProd {α : Type} : List (List α) → List (List α)
  | [] => [[]]
  | xs :: rest => xs.flatMap (fun x => (listProd rest).map (fun r => x :: r))

/-- Embedding of `util.dict_cartesian_product` (with
`include_dict_keys=False`): `[]` for an empty dict, otherwise the
product of the value lists. -/
def dict_cartesian_product {α : Type} (data_dict : List (String × List α)) :
    List (List α) :=
  if data_dict.isEmpty then [] else listProd (data_dict.map Prod.snd)

/-- Error paths of `util.unpivot_dict_to_dataframe` reachable with typed
arguments: the `ValueError` when `key_order` shares no key with the
dict, and the uncaught `KeyError` of `data_dict[key]`. -/
inductive UnpivotError : Type
  | noCommonKeys : UnpivotError
  | keyError (key : String) : UnpivotError
deriving DecidableEq, Repr

/-- `data_dict[key]` lookup in the association-list dict. -/
def dictLookup {α : Type} (data_dict : List (String × List α)) (key : String) :
    Option (List α) :=
  (data_dict.find? (fun p => p.1 = key)).map Prod.snd

/-- `{key: data_dict[key] for key in key_order}`: first missing key
raises `KeyError`. -/
def selectKeys {α : Type} (data_dict : List (String × List α)) :
    List String → Except UnpivotError (List (String × List α))
  | [] => .ok []
  | k :: ks =>
    match dictLookup data_dict k with
    | none => .error (.keyError k)
    | some v => (selectKeys data_dict ks).map (fun rest => (k, v) :: rest)

/-- Embedding of `util.unpivot_dict_to_dataframe`: cartesian product of
the dict's value lists as a DataFrame whose columns are the dict keys
(`if key_order:` is falsy both for `None` and for `[]`). -/
def unpivot_dict_to_dataframe {α : Type} (data_dict : List (String × List α))
    (key_order : Option (List String)) : Except UnpivotError (DataFrame α) :=
  match key_order with
  | none => .ok ⟨data_dict.map Prod.fst, listProd (data_dict.map Prod.snd)⟩
  | some ko =>
    if ko.isEmpty then
      .ok ⟨data_dict.map Prod.fst, listProd (data_dict.map Prod.snd)⟩
    else if ko.all (fun k => !(data_dict.map Prod.fst).contains k) then
      .error .noCommonKeys
    else
      (selectKeys data_dict ko).map
        (fun sel => ⟨sel.map Prod.fst, listProd (sel.map Prod.snd)⟩)

/-- The `ValueError` of `util.filter_dataframe` for a filter key that is
not a DataFrame column; the message names the key. -/
inductive FilterError : Type
  | keyNotAColumn (key : String) : FilterError
deriving DecidableEq, Repr

/-- Cell of `row` at a named column. -/
def rowCell {α : Type} (columns : List String) (row : List α) (col : String) :
    Option α :=
  match columns.indexOf? col with
  | none => none
  | some i => row.get? i

/-- A row passes the filter mask when, for every `(column, values)` pair
of the filter dict, the row's cell at that column is one of `values`
(the conjunction of `df[column].isin(values)` masks). -/
def rowPassesFilter {α : Type} [DecidableEq α] (columns : List String)
    (filter_dict : List (String × List α)) (row : List α) : Bool :=
  filter_dict.all (fun p =>
    match rowCell columns row p.1 with
    | none => false
    | some v => p.2.contains v)

/-- Embedding of `util.filter_dataframe` (default options): raises on
the first filter key that is not a column, otherwise keeps the rows
passing every column's `isin` mask. -/
def filter_dataframe {α : Type} [DecidableEq α] (df_to_filter : DataFrame α)
    (filter_dict : List (String × List α)) : Except FilterError (DataFrame α) :=
  match filter_dict.find? (fun p => !df_to_filter.columns.contains p.1) with
  | some p => .error (.keyNotAColumn p.1)
  | none =>
    .ok ⟨df_to_filter.columns,
         df_to_filter.rows.filter
           (rowPassesFilter df_to_filter.columns filter_dict)⟩

/-! ## util.find_non_allowed_types and the exogenous fetch check

A fetched column is embedded as a list of `(row_id, cell)` pairs, a cell
being `none` for a null (`pd.isna`) and `some v` otherwise; membership
of `v` in the `allowed_types` tuple is the predicate `isAllowed`. -/

/-- Embedding of `util.find_non_allowed_types` (with a
`return_col_header`): ids of the rows whose cell is null (flagged unless
`allow_none`) or non-null of a non-allowed type (always flagged). -/
def find_non_allowed_types {ι α : Type} (isAllowed : α → Bool)
    (allow_none : Bool) (rows : List (ι × Option α)) : List ι :=
  (rows.filter (fun r =>
    match r.2 with
    | none => !allow_none
    | some v => !isAllowed v)).map Prod.fst

/-- Outcome of the per-combination validation inside
`core.data_to_cvxpy_exogenous_vars`: either no offending row, or a
`MissingDataError` whose message lists row ids (at most the first five)
and, when more than five exist, the total count. -/
inductive FetchCheck (ι : Type) : Type
  | ok : FetchCheck ι
  | missingDataError (listed : List ι) (totalCount : Option ℕ) : FetchCheck ι
deriving DecidableEq, Repr

/-- Embedding of the validation block of
`core.data_to_cvxpy_exogenous_vars`: run `find_non_allowed_types`; if
any ids come back, raise `MissingDataError` naming them, truncated to
the first five plus the total count when more than five exist. -/
def exogenous_fetch_check {ι α : Type} (isAllowed : α → Bool)
    (allow_none : Bool) (rows : List (ι × Option α)) : FetchCheck ι :=
  if (find_non_allowed_types isAllowed allow_none rows).isEmpty then .ok
  else if 5 < (find_non_allowed_types isAllowed allow_none rows).length then
    .missingDataError ((find_non_allowed_types isAllowed allow_none rows).take 5)
      (some (find_non_allowed_types isAllowed allow_none rows).length)
  else
    .missingDataError (find_non_allowed_types isAllowed allow_none rows) none

/-! ## core.solve_integrated_problems

The coupled-solve orchestrator is embedded as a deterministic state
machine over an environment of oracles.  Each external effect (database
snapshot copy, exogenous fetch, sub-problem solve, endogenous writeback,
relative-difference diff) is an oracle returning `Except Err _`; an
`.error` models a Python exception raised by that call.  The run
produces the trace of effects as a list of events, so that `try/finally`
cleanup and control flow (`continue` / `break` / exception propagation)
can be stated directly on traces and outcomes. -/

/-- Python exceptions are abstracted to their message. -/
abbrev Err := String

/-- The recorded solver status of one sub-problem solve
(`problem_status` column). -/
inductive PStatus : Type
  | optimal
  | infeasible
  | unbounded
  | errorOther
deriving DecidableEq, Repr

/-- Environment of `solve_integrated_problems`: the declared
sub-problems (in declaration order), the scenarios table index, the
iteration bound and tolerance, and the effect oracles.  Oracles are
indexed by scenario and (where the code's behaviour can differ per
iteration) by the iteration counter. -/
structure OrchestratorEnv : Type where
  subProblems : List String
  scenarios : List ℕ
  maxIterations : ℕ
  tolerance : ℚ
  copyBackup : Except Err Unit
  fetchExogenous : ℕ → Except Err Unit
  snapshotPrevious : ℕ → ℕ → Except Err Unit
  solveSubProblem : ℕ → ℕ → String → Except Err PStatus
  writebackEndogenous : ℕ → ℕ → Except Err Unit
  relativeDifference : ℕ → ℕ → Except Err (List (String × ℚ))

/-- The observable effects of a run, in order. -/
inductive Event : Type
  | logIteration (scenario iter : ℕ)
  | warnMaxIterations (scenario : ℕ)
  | fetchExo (scenario iter : ℕ)
  | copyPrevious (scenario iter : ℕ)
  | solve (scenario iter : ℕ) (subProblem : String) (status : PStatus)
  | warnInfeasible (scenario : ℕ)
  | writeback (scenario iter : ℕ)
  | logConvergence (scenario iter : ℕ)
  | erasePrevious (scenario iter : ℕ)
  | copyBackup
  | eraseWorkingDatabase
  | renameBackupToDatabase
deriving DecidableEq, Repr

/-- Outcome of one iteration of the `while True` loop: `next` is
Python's `continue`, `stop` is `break`, `fail e` is an exception
propagating out of the loop body. -/
inductive IterOutcome : Type
  | next
  | stop
  | fail (e : Err)
deriving DecidableEq, Repr

/-- The `for sub_problem, problem_df in numerical_problems.items()` solve
loop: solves each sub-problem in declaration order, recording each
status; an exception interrupts the remaining solves. -/
def solveAllSubProblems (env : OrchestratorEnv) (s k : ℕ) :
    List String → List Event × Except Err (List PStatus)
  | [] => ([], .ok [])
  | p :: ps =>
    match env.solveSubProblem s k p with
    | .error e => ([], .error e)
    | .ok st =>
      let rest := solveAllSubProblems env s k ps
      (Event.solve s k p st :: rest.1, rest.2.map (fun sts => st :: sts))

/-- One pass of the body of the `while True` loop (everything inside the
inner `try`, before its `finally`), at iteration counter `k` (already
incremented).  Mirrors `core.solve_integrated_problems` lines by line:
max-iterations check, exogenous re-fetch from the second iteration on,
snapshot of the store to the `_previous` file, solve of every declared
sub-problem, the all-optimal status check (break on infeasible without
writeback), endogenous writeback, unconditional `continue` on the first
iteration, and the relative-difference convergence check. -/
def iterationBody (env : OrchestratorEnv) (s k : ℕ) :
    List Event × IterOutcome :=
  if k > env.maxIterations then
    ([Event.logIteration s k, Event.warnMaxIterations s], .stop)
  else
    let fetchStep : List Event × Except Err Unit :=
      if k > 1 then ([Event.fetchExo s k], env.fetchExogenous s)
      else ([], .ok ())
    let ev1 := Event.logIteration s k :: fetchStep.1
    match fetchStep.2 with
    | .error e => (ev1, .fail e)
    | .ok _ =>
      let ev2 := ev1 ++ [Event.copyPrevious s k]
      match env.snapshotPrevious s k with
      | .error e => (ev2, .fail e)
      | .ok _ =>
        let solved := solveAllSubProblems env s k env.subProblems
        let ev3 := ev2 ++ solved.1
        match solved.2 with
        | .error e => (ev3, .fail e)
        | .ok statuses =>
          if !statuses.all (fun st => st = .optimal) then
            (ev3 ++ [Event.warnInfeasible s], .stop)
          else
            let ev4 := ev3 ++ [Event.writeback s k]
            match env.writebackEndogenous s k with
            | .error e => (ev4, .fail e)
            | .ok _ =>
              if k = 1 then (ev4, .next)
              else
                match env.relativeDifference s k with
                | .error e => (ev4, .fail e)
                | .ok diffs =>
                  if (diffs.filter
                      (fun p => p.2 > env.tolerance)).isEmpty then
                    (ev4 ++ [Event.logConvergence s k], .stop)
                  else
                    (ev4, .next)

/-- One full iteration: the body wrapped in the inner
`try ... finally: erase _previous`, which appends the snapshot deletion
on every exit path (continue, break and exception alike). -/
def runIteration (env : OrchestratorEnv) (s k : ℕ) :
    List Event × IterOutcome :=
  let body := iterationBody env s k
  (body.1 ++ [Event.erasePrevious s k], body.2)

/-- The `while True` loop for one scenario, with the iteration counter
starting at `k`.  `fuel` is a structural bound only: started with
`maxIterations + 1` spare steps at `k = 1` it never runs out, because
the body breaks as soon as `k` exceeds `maxIterations`. -/
def scenarioLoop (env : OrchestratorEnv) (s : ℕ) :
    ℕ → ℕ → List Event × Except Err Unit
  | 0, _ => ([], .ok ())
  | fuel + 1, k =>
    let iter := runIteration env s k
    match iter.2 with
    | .next =>
      let rest := scenarioLoop env s fuel (k + 1)
      (iter.1 ++ rest.1, rest.2)
    | .stop => (iter.1, .ok ())
    | .fail e => (iter.1, .error e)

/-- The coupled-solve loop for a single scenario (iteration counter
reset, then the `while True` loop). -/
def runScenario (env : OrchestratorEnv) (s : ℕ) :
    List Event × Except Err Unit :=
  scenarioLoop env s (env.maxIterations + 1) 1

/-- The `for scenario_idx in scenarios_df.index` loop: scenarios run in
order; a `break` of one scenario's iteration loop moves on to the next
scenario, while an exception aborts the remaining scenarios. -/
def runScenarios (env : OrchestratorEnv) :
    List ℕ → List Event × Except Err Unit
  | [] => ([], .ok ())
  | s :: rest =>
    let this_ := runScenario env s
    match this_.2 with
    | .error e => (this_.1, .error e)
    | .ok _ =>
      let more := runScenarios env rest
      (this_.1 ++ more.1, more.2)

/-- Embedding of `core.solve_integrated_problems`: backup copy of the
database, then the scenario loop inside the outer
`try ... finally: erase working database; rename backup`, whose cleanup
runs on both the normal and the exceptional exit of the loop.  An
exception in the backup copy itself occurs before the `try` and skips
the cleanup. -/
def solve_integrated_problems (env : OrchestratorEnv) :
    List Event × Except Err Unit :=
  match env.copyBackup with
  | .error e => ([Event.copyBackup], .error e)
  | .ok _ =>
    let looped := runScenarios env env.scenarios
    (Event.copyBackup :: looped.1 ++
      [Event.eraseWorkingDatabase, Event.renameBackupToDatabase], looped.2)

/-- Recognizes the per-iteration store snapshot: each iteration that
reaches the sub-problem solving phase emits exactly one. -/
def isSnapshotEvent : Event → Bool
  | Event.copyPrevious _ _ => true
  | _ => false

/-- Recognizes an endogenous writeback. -/
def isWritebackEvent : Event → Bool
  | Event.writeback _ _ => true
  | _ => false

/-- Count of iterations of a trace that reached the sub-problem solving
phase. -/
def solveIterationCount (trace : List Event) : ℕ :=
  (trace.filter isSnapshotEvent).length

/-- Count of endogenous writebacks in a trace. -/
def writebackCount (trace : List Event) : ℕ :=
  (trace.filter isWritebackEvent).length

/-- A scenario on which every oracle succeeds, every solve is optimal,
and the relative difference always has some table above tolerance: the
coupled iteration can then never meet the convergence criterion. -/
def DivergentScenario (env : OrchestratorEnv) (s : ℕ) : Prop :=
  env.fetchExogenous s = .ok () ∧
  (∀ k, env.snapshotPrevious s k = .ok ()) ∧
  (∀ k p, env.solveSubProblem s k p = .ok .optimal) ∧
  (∀ k, env.writebackEndogenous s k = .ok ()) ∧
  (∀ k, ∃ diffs, env.relativeDifference s k = .ok diffs ∧
    (diffs.filter (fun p => p.2 > env.tolerance)).isEmpty = false)

/-! ## util_operators.weibull_distribution

After the type checks, the code computes (all in floating point,
idealised here over ℝ):
`weib_range = int(sc) * 2`, raised to `len(rx)` when smaller;
`weib_dist = sh/sc * (x/sc)**(sh-1) * exp(-((x/sc)**sh))` over
`x = 1 .. weib_range`; `np.round(weib_dist, rounding)` (round half to
even at the given decimal); division by the sum of the rounded values;
truncation to the first `len(rx)` entries; and, for `dimensions=2`, an
`len(rx) × len(rx)` matrix whose column `i` is `np.roll(vector, i)` with
its first `i` entries zeroed.  Only the length of `rx` enters the
computation. -/

/-- Python `int()` on a float: truncation toward zero. -/
noncomputable def truncInt (x : ℝ) : ℤ :=
  if 0 ≤ x then ⌊x⌋ else -⌊-x⌋

/-- `np.round` to an integer: round half to even (banker's rounding). -/
noncomputable def roundHalfEven (x : ℝ) : ℤ :=
  if Int.fract x = 1 / 2 then 2 * round (x / 2) else round x

/-- `np.round(x, d)`: round half to even at the d-th decimal. -/
noncomputable def npRound (d : ℕ) (x : ℝ) : ℝ :=
  ((roundHalfEven (x * 10 ^ d) : ℤ) : ℝ) / 10 ^ d

/-- The Weibull density formula of the source,
`sh/sc * (x/sc)**(sh-1) * exp(-((x/sc)**sh))`. -/
noncomputable def weibullDensity (sc sh x : ℝ) : ℝ :=
  sh / sc * (x / sc) ^ (sh - 1) * Real.exp (-((x / sc) ^ sh))

/-- `weib_range`: `int(sc) * 2`, but at least the length of the range
vector. -/
noncomputable def weibRange (sc : ℝ) (n : ℕ) : ℕ :=
  if 2 * truncInt sc ≤ (n : ℤ) then n else (2 * truncInt sc).toNat

/-- The raw density samples over `x = 1 .. weib_range`. -/
noncomputable def rawWeibullList (sc sh : ℝ) (n : ℕ) : List ℝ :=
  (List.range (weibRange sc n)).map
    (fun (i : ℕ) => weibullDensity sc sh ((i : ℝ) + 1))

/-- The density samples after `np.round(…, rounding)`. -/
noncomputable def roundedWeibullList (sc sh : ℝ) (rounding n : ℕ) : List ℝ :=
  (rawWeibullList sc sh n).map (npRound rounding)

/-- Embedding of `weibull_distribution` with `dimensions=1`: the rounded
density renormalized by its (pre-truncation) sum, then truncated to the
first `len(rx)` entries. -/
noncomputable def weibull_distribution_dim1 (sc sh : ℝ) (n rounding : ℕ) :
    List ℝ :=
  ((roundedWeibullList sc sh rounding n).map
    (fun v => v / (roundedWeibullList sc sh rounding n).sum)).take n

/-- Embedding of `weibull_distribution` with `dimensions=2`: entry
(r, c) of the `n × n` matrix whose column `c` is `np.roll(vector, c)`
(modular downward roll) with its first `c` entries zeroed. -/
noncomputable def weibull_distribution_dim2 (sc sh : ℝ) (n rounding : ℕ)
    (r c : ℕ) : ℝ :=
  if r < c then 0
  else (weibull_distribution_dim1 sc sh n rounding).getD
    ((r + n - c % n) % n) 0

/-- A concrete oscillating environment: every oracle succeeds, every
solve is optimal, and one table always sits above the (zero)
tolerance, so convergence is never reached. -/
def sampleEnv : OrchestratorEnv where
  subProblems := ["p1", "p2"]
  scenarios := [0, 1]
  maxIterations := 3
  tolerance := 0
  copyBackup := .ok ()
  fetchExogenous := fun _ => .ok ()
  snapshotPrevious := fun _ _ => .ok ()
  solveSubProblem := fun _ _ _ => .ok .optimal
  writebackEndogenous := fun _ _ => .ok ()
  relativeDifference := fun _ _ => .ok [("t", 1)]

/-- A concrete environment whose second sub-problem reports
infeasibility on every solve. -/
def infeasibleEnv : OrchestratorEnv where
  subProblems := ["p1", "p2"]
  scenarios := [0, 1]
  maxIterations := 3
  tolerance := 0
  copyBackup := .ok ()
  fetchExogenous := fun _ => .ok ()
  snapshotPrevious := fun _ _ => .ok ()
  solveSubProblem := fun _ _ p => if p = "p2" then .ok .infeasible else .ok .optimal
  writebackEndogenous := fun _ _ => .ok ()
  relativeDifference := fun _ _ => .ok [("t", 1)]

end CvxLab

namespace CvxLab

/-! # Theorems -/

/-- C5 helper: the shifted-diagonal characterisation of `shift`. -/
theorem shift_apply (n : ℕ) (k : ℤ) (i j : Fin n) :
    shift n k i j = if (i : ℤ) = (j : ℤ) + k then 1 else 0 := by
  simp only [shift, npEye, Matrix.of_apply]
  by_cases h : (i : ℤ) = (j : ℤ) + k
  · rw [if_pos (by omega), if_pos h]
  · rw [if_neg (by omega), if_neg h]

/-- **C5.** `shift(N, k)` returns `eye(N, k=-k)`: the identity when
`k = 0`; ones exactly on the diagonal shifted down by `k` (up by `|k|`
for negative `k`), i.e. at entries with `row = col + k`; and the zero
matrix when `|k| ≥ N`. -/
theorem shift_spec (n : ℕ) (k : ℤ) (hn : 0 < n) :
    shift n k = npEye n (-k) ∧
    shift n 0 = (1 : Matrix (Fin n) (Fin n) ℚ) ∧
    (∀ i j : Fin n, shift n k i j = if (i : ℤ) = (j : ℤ) + k then 1 else 0) ∧
    ((n : ℤ) ≤ |k| → shift n k = 0) := by
  refine ⟨rfl, ?_, shift_apply n k, ?_⟩
  · ext i j
    rw [shift_apply, Matrix.one_apply]
    by_cases h : i = j
    · subst h
      rw [if_pos (by ring), if_pos rfl]
    · have hne : ¬ ((i : ℤ) = (j : ℤ) + 0) := by
        intro hc
        exact h (Fin.ext (by omega))
      rw [if_neg hne, if_neg h]
  · intro hk
    ext i j
    rw [shift_apply]
    have hi : (i : ℤ) < n := by exact_mod_cast i.isLt
    have hj : (j : ℤ) < n := by exact_mod_cast j.isLt
    have hno : ¬ ((i : ℤ) = (j : ℤ) + k) := by
      rcases abs_cases k with ⟨hk1, _⟩ | ⟨hk1, _⟩ <;> omega
    rw [if_neg hno]
    rfl

/-- Witness for C5 at `n = 3`, `k = 1`. -/
theorem shift_spec_witness :
    0 < 3 ∧
    (shift 3 1 = npEye 3 (-1) ∧
     shift 3 0 = (1 : Matrix (Fin 3) (Fin 3) ℚ) ∧
     (∀ i j : Fin 3, shift 3 1 i j = if (i : ℤ) = (j : ℤ) + 1 then 1 else 0) ∧
     ((3 : ℤ) ≤ |(1 : ℤ)| → shift 3 1 = 0)) :=
  ⟨by decide, shift_spec 3 1 (by decide)⟩

/-- **C8.** For period length `P`, lifetime `L` and rate vector `r`, the
annuity matrix is lower-triangular-banded: the entry at (row, col) is the
capital-recovery factor of column `col` whenever `col ≤ row < col + L`,
and 0 everywhere else (above the diagonal and below the band). -/
theorem annuity_spec (pl : ℕ) (lt : ℕ) (ir : ℕ → ℚ) (hpl : 0 < pl) :
    ∀ r c : Fin pl,
      annuity pl lt ir r c =
        if (c : ℕ) ≤ (r : ℕ) ∧ (r : ℕ) < (c : ℕ) + lt
        then capitalRecoveryFactor (ir c) lt
        else 0 := by
  rintro ⟨r, hr⟩ ⟨c, hc⟩
  simp only [Fin.val_mk]
  show annuityEntry lt ir r c = _
  unfold annuityEntry capitalRecoveryFactor
  by_cases h1 : c > r
  · have h3 : ¬ (c ≤ r ∧ r < c + lt) := by omega
    rw [if_pos h1, if_neg h3]
  · rw [if_neg h1]
    by_cases h2 : r - c < lt
    · have h3 : c ≤ r ∧ r < c + lt := by omega
      rw [if_pos h2, if_pos h3]
    · have h3 : ¬ (c ≤ r ∧ r < c + lt) := by omega
      rw [if_neg h2, if_neg h3]

/-- Witness for C8 at `P = 3`, `L = 2`, rate vector `(0, 1/10, 1/10)`. -/
theorem annuity_spec_witness :
    0 < 3 ∧
    (∀ r c : Fin 3,
      annuity 3 2 (fun i => if i = 0 then 0 else 1/10) r c =
        if (c : ℕ) ≤ (r : ℕ) ∧ (r : ℕ) < (c : ℕ) + 2
        then capitalRecoveryFactor
          ((fun i => if i = 0 then (0 : ℚ) else 1/10) (c : ℕ)) 2
        else 0) :=
  ⟨by decide, annuity_spec 3 2 (fun i => if i = 0 then 0 else 1/10) (by decide)⟩

/-- **C9.** `extract_tokens_from_expression "a + b_1 - c2 * d / e"`
yields exactly `["a", "b_1", "c2", "d", "e"]`; and for every expression
and skip-list, the skip-list removes only whole-token matches: a token of
the expression survives exactly when it is not itself in the skip-list,
so a skipped token that is a prefix, suffix or substring of a longer
retained token never removes it (e.g. skipping `"b"` keeps `"cb"` and
`"bba"`, skipping `"bb"` keeps `"cbb"`). -/
theorem extract_tokens_spec :
    extract_tokens_from_expression "a + b_1 - c2 * d / e" [] =
      ["a", "b_1", "c2", "d", "e"] ∧
    (∀ (expression : String) (tokens_to_skip : List String) (t : String),
      (t ∈ extract_tokens_from_expression expression tokens_to_skip ↔
        t ∈ findIdentifiers expression ∧ t ∉ tokens_to_skip)) ∧
    extract_tokens_from_expression "b + cb - bba" ["b"] = ["cb", "bba"] ∧
    extract_tokens_from_expression "bb + cbb" ["bb"] = ["cbb"] := by
  refine ⟨by decide, ?_, by decide, by decide⟩
  intro expression tokens_to_skip t
  simp [extract_tokens_from_expression, List.mem_filter]

/-- Sum of a constant-valued map. -/
theorem sum_map_const_nat {α : Type} (xs : List α) (n : ℕ) :
    (xs.map (fun _ => n)).sum = xs.length * n := by
  induction xs with
  | nil => simp
  | cons x xs ih => simp [ih, Nat.succ_mul, Nat.add_comm]

/-- The product list has exactly `c1 * ... * cn` entries. -/
theorem listProd_length {α : Type} (ls : List (List α)) :
    (listProd ls).length = (ls.map List.length).prod := by
  induction ls with
  | nil => simp [listProd]
  | cons xs rest ih =>
    simp [listProd, List.length_flatMap, List.map_map, Function.comp_def, ih,
      sum_map_const_nat]

/-- An empty axis collapses the whole product to no rows. -/
theorem listProd_of_nil_mem {α : Type} (ls : List (List α)) (h : [] ∈ ls) :
    listProd ls = [] := by
  induction ls with
  | nil => cases h
  | cons xs rest ih =>
    rcases List.mem_cons.1 h with h1 | h1
    · subst h1
      simp [listProd]
    · simp [listProd, ih h1]

/-- Distinct items along each axis give distinct product rows. -/
theorem listProd_nodup {α : Type} (ls : List (List α))
    (h : ∀ l ∈ ls, l.Nodup) : (listProd ls).Nodup := by
  induction ls with
  | nil => simp [listProd]
  | cons xs rest ih =>
    have hxs : xs.Nodup := h xs (List.mem_cons_self xs rest)
    have hrest : (listProd rest).Nodup :=
      ih (fun l hl => h l (List.mem_cons_of_mem xs hl))
    refine List.nodup_flatMap.2 ⟨fun x _ => hrest.map (fun a b hab => ?_), ?_⟩
    · exact List.cons_injective hab
    · refine hxs.imp (fun hne => ?_)
      intro r hr1 hr2
      rcases List.mem_map.1 hr1 with ⟨u, _, rfl⟩
      rcases List.mem_map.1 hr2 with ⟨v, _, huv⟩
      exact absurd (List.head_eq_of_cons_eq huv.symm) hne

/-- Appending one more axis refines each existing row in place: the last
axis varies fastest. -/
theorem listProd_append_singleton {α : Type} (ls : List (List α))
    (lastAxis : List α) :
    listProd (ls ++ [lastAxis]) =
      (listProd ls).flatMap (fun r => lastAxis.map (fun x => r ++ [x])) := by
  induction ls with
  | nil =>
    show listProd [lastAxis] = _
    simp only [listProd, List.flatMap, List.map_map, Function.comp_def]
    induction lastAxis with
    | nil => rfl
    | cons y ys ihy => simpa using ihy
  | cons xs rest ih =>
    show listProd (xs :: (rest ++ [lastAxis])) = _
    simp only [listProd, ih, List.map_flatMap, List.flatMap_assoc,
      List.flatMap_map, List.map_map, Function.comp_def, List.cons_append]

/-- **C6.** With no `key_order`, `unpivot_dict_to_dataframe` on `n`
non-empty axes with distinct items returns (without error) a table with
one column per axis, named after the axes in dict order, with exactly
`c1 * ... * cn` rows, no duplicate rows, the rows being the standard
cartesian product of the axes with the last axis varying fastest. -/
theorem unpivot_cartesian_product_spec {α : Type}
    (data_dict : List (String × List α))
    (hne : ∀ p ∈ data_dict, p.2 ≠ [])
    (hnd : ∀ p ∈ data_dict, p.2.Nodup) :
    ∃ df : DataFrame α,
      unpivot_dict_to_dataframe data_dict none = .ok df ∧
      df.columns = data_dict.map Prod.fst ∧
      df.columns.length = data_dict.length ∧
      df.rows = listProd (data_dict.map Prod.snd) ∧
      df.rows.length = (data_dict.map (fun p => p.2.length)).prod ∧
      df.rows.Nodup ∧
      (∀ (initAxes : List (List α)) (lastAxis : List α),
        listProd (initAxes ++ [lastAxis]) =
          (listProd initAxes).flatMap
            (fun r => lastAxis.map (fun x => r ++ [x]))) := by
  refine ⟨⟨data_dict.map Prod.fst, listProd (data_dict.map Prod.snd)⟩,
    rfl, rfl, by simp, rfl, ?_, ?_, listProd_append_singleton⟩
  · rw [listProd_length, List.map_map]
    rfl
  · refine listProd_nodup _ (fun l hl => ?_)
    rcases List.mem_map.1 hl with ⟨p, hp, rfl⟩
    exact hnd p hp

/-- Witness for C6 at a concrete two-axis dict. -/
theorem unpivot_cartesian_product_spec_witness :
    ∃ df : DataFrame ℕ,
      unpivot_dict_to_dataframe [("rows", [0, 1]), ("cols", [2, 3, 4])] none =
        .ok df ∧
      df.columns = [("rows", [0, 1]), ("cols", [2, 3, 4])].map Prod.fst ∧
      df.columns.length = [("rows", [0, 1]), ("cols", [2, 3, 4])].length ∧
      df.rows = listProd ([("rows", [0, 1]), ("cols", [2, 3, 4])].map Prod.snd) ∧
      df.rows.length =
        ([("rows", [0, 1]), ("cols", [2, 3, 4])].map
          (fun p => p.2.length)).prod ∧
      df.rows.Nodup ∧
      (∀ (initAxes : List (List ℕ)) (lastAxis : List ℕ),
        listProd (initAxes ++ [lastAxis]) =
          (listProd initAxes).flatMap
            (fun r => lastAxis.map (fun x => r ++ [x]))) :=
  unpivot_cartesian_product_spec [("rows", [0, 1]), ("cols", [2, 3, 4])]
    (by decide) (by decide)

/-- **C7, counterexample.** Contrary to the claim, an axis with an empty
item list does not make the cartesian-product table raise: on
`{"a": []}` the unpivot returns an empty table, not an error. -/
theorem unpivot_empty_axis_does_not_raise :
    unpivot_dict_to_dataframe [("a", ([] : List ℕ))] none =
      .ok ⟨["a"], []⟩ ∧
    ∀ e, unpivot_dict_to_dataframe [("a", ([] : List ℕ))] none ≠ .error e := by
  refine ⟨rfl, fun e h => ?_⟩
  rw [show unpivot_dict_to_dataframe [("a", ([] : List ℕ))] none =
        .ok ⟨["a"], []⟩ from rfl] at h
  exact Except.noConfusion h

/-- **C7, amended.** An axis mapping containing an empty item list makes
the cartesian-product table come back empty (zero rows, no error
raised); and `filter_dataframe` with a filter key that is not a column
of the table raises an error naming a mismatched key (the first one in
filter order). -/
theorem coordinate_algebra_error_spec {α : Type} [DecidableEq α] :
    (∀ (data_dict : List (String × List α)) (ax : String),
      (ax, ([] : List α)) ∈ data_dict →
      ∃ df : DataFrame α,
        unpivot_dict_to_dataframe data_dict none = .ok df ∧ df.rows = []) ∧
    (∀ (df : DataFrame α) (filter_dict : List (String × List α)),
      (∃ p ∈ filter_dict, p.1 ∉ df.columns) →
      ∃ key, filter_dataframe df filter_dict = .error (.keyNotAColumn key) ∧
        key ∉ df.columns ∧ key ∈ filter_dict.map Prod.fst) := by
  constructor
  · intro data_dict ax hmem
    refine ⟨⟨data_dict.map Prod.fst, listProd (data_dict.map Prod.snd)⟩,
      rfl, ?_⟩
    refine listProd_of_nil_mem _ ?_
    exact List.mem_map.2 ⟨(ax, []), hmem, rfl⟩
  · intro df filter_dict hbad
    have hfind : (filter_dict.find?
        (fun p => !df.columns.contains p.1)).isSome := by
      rcases hbad with ⟨p, hp, hpc⟩
      refine List.find?_isSome.2 ⟨p, hp, ?_⟩
      simpa using hpc
    rcases Option.isSome_iff_exists.1 hfind with ⟨q, hq⟩
    refine ⟨q.1, ?_, ?_, ?_⟩
    · unfold filter_dataframe
      rw [hq]
    · have := List.find?_some hq
      simpa using this
    · exact List.mem_map.2 ⟨q, List.mem_of_find?_eq_some hq, rfl⟩

/-- Witness for C7 (amended) at concrete inputs: the dict `{"a": []}`
and a filter on column `"y"` against a table with single column `"x"`. -/
theorem coordinate_algebra_error_spec_witness :
    (∃ df : DataFrame ℕ,
      unpivot_dict_to_dataframe [("a", ([] : List ℕ))] none = .ok df ∧
      df.rows = []) ∧
    (∃ key, filter_dataframe (⟨["x"], [[1]]⟩ : DataFrame ℕ)
        [("y", [2])] = .error (.keyNotAColumn key) ∧
      key ∉ (⟨["x"], [[1]]⟩ : DataFrame ℕ).columns ∧
      key ∈ [("y", [2])].map Prod.fst) :=
  ⟨(coordinate_algebra_error_spec (α := ℕ)).1 [("a", [])] "a" (by decide),
   (coordinate_algebra_error_spec (α := ℕ)).2 ⟨["x"], [[1]]⟩ [("y", [2])]
     ⟨("y", [2]), by decide, by decide⟩⟩

/-- **C10.** A fetched row is offending exactly when its value is null
with `allow_none = false`, or non-null of a non-allowed type (regardless
of `allow_none`); the fetch check raises `MissingDataError` exactly when
offending rows exist, naming all of them when at most five, and the
first five plus the total count when more than five. -/
theorem exogenous_fetch_check_spec {ι α : Type} (isAllowed : α → Bool)
    (allow_none : Bool) (rows : List (ι × Option α)) :
    (∀ i, i ∈ find_non_allowed_types isAllowed allow_none rows ↔
      ∃ c, (i, c) ∈ rows ∧
        ((c = none ∧ allow_none = false) ∨
         (∃ v, c = some v ∧ isAllowed v = false))) ∧
    (exogenous_fetch_check isAllowed allow_none rows = .ok ↔
      find_non_allowed_types isAllowed allow_none rows = []) ∧
    (find_non_allowed_types isAllowed allow_none rows ≠ [] →
      exogenous_fetch_check isAllowed allow_none rows =
        if 5 < (find_non_allowed_types isAllowed allow_none rows).length then
          .missingDataError
            ((find_non_allowed_types isAllowed allow_none rows).take 5)
            (some (find_non_allowed_types isAllowed allow_none rows).length)
        else
          .missingDataError (find_non_allowed_types isAllowed allow_none rows)
            none) ∧
    (∀ listed total,
      exogenous_fetch_check isAllowed allow_none rows =
        .missingDataError listed total → listed.length ≤ 5) := by
  refine ⟨?_, ?_, ?_, ?_⟩
  · intro i
    unfold find_non_allowed_types
    simp only [List.mem_map, List.mem_filter]
    constructor
    · rintro ⟨⟨i', c⟩, ⟨hmem, hpred⟩, rfl⟩
      refine ⟨c, hmem, ?_⟩
      match c with
      | none =>
        left
        simpa using hpred
      | some v =>
        right
        exact ⟨v, rfl, by simpa using hpred⟩
    · rintro ⟨c, hmem, hc⟩
      refine ⟨(i, c), ⟨hmem, ?_⟩, rfl⟩
      rcases hc with ⟨rfl, rfl⟩ | ⟨v, rfl, hv⟩
      · rfl
      · simpa using hv
  · constructor
    · intro hok
      by_contra hne
      have hE : (find_non_allowed_types isAllowed allow_none rows).isEmpty
          = false := by
        simpa [List.isEmpty_iff] using hne
      unfold exogenous_fetch_check at hok
      rw [hE, if_neg (by simp)] at hok
      by_cases h5 :
          5 < (find_non_allowed_types isAllowed allow_none rows).length
      · rw [if_pos h5] at hok
        exact FetchCheck.noConfusion hok
      · rw [if_neg h5] at hok
        exact FetchCheck.noConfusion hok
    · intro hnil
      unfold exogenous_fetch_check
      rw [hnil]
      rfl
  · intro hne
    have hE : (find_non_allowed_types isAllowed allow_none rows).isEmpty
        = false := by
      simpa [List.isEmpty_iff] using hne
    unfold exogenous_fetch_check
    rw [hE, if_neg (by simp)]
  · intro listed total heq
    unfold exogenous_fetch_check at heq
    by_cases hE : (find_non_allowed_types isAllowed allow_none rows).isEmpty
    · rw [if_pos hE] at heq
      exact FetchCheck.noConfusion heq
    · rw [if_neg hE] at heq
      by_cases h5 :
          5 < (find_non_allowed_types isAllowed allow_none rows).length
      · rw [if_pos h5] at heq
        cases heq
        simpa using List.length_take_le 5 _
      · rw [if_neg h5] at heq
        cases heq
        omega

/-- Witness for C10 on a concrete column with a null, an allowed value
and seven offending rows in total. -/
theorem exogenous_fetch_check_spec_witness :
    ((0 : ℕ) ∈ find_non_allowed_types (fun v : ℕ => decide (v < 10)) false
        [(0, none), (1, some 3), (2, some 20), (3, some 21), (4, some 22),
         (5, some 23), (6, some 24), (7, some 25)] ↔
      ∃ c, ((0 : ℕ), c) ∈
          [((0 : ℕ), (none : Option ℕ)), (1, some 3), (2, some 20),
           (3, some 21), (4, some 22), (5, some 23), (6, some 24),
           (7, some 25)] ∧
        ((c = none ∧ false = false) ∨
         (∃ v, c = some v ∧ decide (v < 10) = false))) ∧
    (find_non_allowed_types (fun v : ℕ => decide (v < 10)) false
        [(0, none), (1, some 3), (2, some 20), (3, some 21), (4, some 22),
         (5, some 23), (6, some 24), (7, some 25)] ≠ [] ∧
     exogenous_fetch_check (fun v : ℕ => decide (v < 10)) false
        [(0, none), (1, some 3), (2, some 20), (3, some 21), (4, some 22),
         (5, some 23), (6, some 24), (7, some 25)] =
       .missingDataError [0, 2, 3, 4, 5] (some 7)) := by
  have h := exogenous_fetch_check_spec (fun v : ℕ => decide (v < 10)) false
    [(0, none), (1, some 3), (2, some 20), (3, some 21), (4, some 22),
     (5, some 23), (6, some 24), (7, some 25)]
  refine ⟨h.1 0, by decide, ?_⟩
  rw [h.2.2.1 (by decide)]
  decide

/-- **C4.** Whenever `solve_integrated_problems` terminates — normally,
or through any exception propagating out of the scenario loop (the
oracles of `env` are unconstrained and may fail anywhere) — the trace
ends with the working-database deletion followed by the backup rename;
and every single iteration's trace ends with the deletion of the
`_previous` snapshot, on every exit path (continue, break, exception). -/
theorem cleanup_on_all_exit_paths (env : OrchestratorEnv)
    (hbackup : env.copyBackup = .ok ()) :
    (∃ pre, (solve_integrated_problems env).1 =
      pre ++ [Event.eraseWorkingDatabase, Event.renameBackupToDatabase]) ∧
    (∀ s k, ∃ pre, (runIteration env s k).1 =
      pre ++ [Event.erasePrevious s k]) := by
  constructor
  · refine ⟨Event.copyBackup :: (runScenarios env env.scenarios).1, ?_⟩
    unfold solve_integrated_problems
    rw [hbackup]
  · intro s k
    exact ⟨(iterationBody env s k).1, rfl⟩

/-- Witness for C4: the sample environment's backup copy succeeds and
both cleanups close their traces. -/
theorem cleanup_on_all_exit_paths_witness :
    sampleEnv.copyBackup = .ok () ∧
    ((∃ pre, (solve_integrated_problems sampleEnv).1 =
      pre ++ [Event.eraseWorkingDatabase, Event.renameBackupToDatabase]) ∧
    (∀ s k, ∃ pre, (runIteration sampleEnv s k).1 =
      pre ++ [Event.erasePrevious s k])) :=
  ⟨rfl, cleanup_on_all_exit_paths sampleEnv rfl⟩

/-- The solve loop only ever emits solve events. -/
theorem solveAllSubProblems_no_writeback (env : OrchestratorEnv)
    (s k s' k' : ℕ) (ps : List String) :
    Event.writeback s' k' ∉ (solveAllSubProblems env s k ps).1 := by
  induction ps with
  | nil => simp [solveAllSubProblems]
  | cons p ps ih =>
    unfold solveAllSubProblems
    cases henv : env.solveSubProblem s k p with
    | error e => simp
    | ok st => simpa using ih

/-- When every solve succeeds, the solve loop records one status per
declared sub-problem, in declaration order. -/
theorem solveAllSubProblems_events_eq (env : OrchestratorEnv) (s k : ℕ)
    (ps : List String) (sts : List PStatus)
    (h : (solveAllSubProblems env s k ps).2 = .ok sts) :
    (solveAllSubProblems env s k ps).1 =
      List.zipWith (fun p st => Event.solve s k p st) ps sts := by
  induction ps generalizing sts with
  | nil =>
    unfold solveAllSubProblems at h ⊢
    cases h
    rfl
  | cons p ps ih =>
    unfold solveAllSubProblems at h ⊢
    cases henv : env.solveSubProblem s k p with
    | error e =>
      rw [henv] at h
      simp at h
    | ok st =>
      rw [henv] at h
      dsimp only at h ⊢
      cases hrest : (solveAllSubProblems env s k ps).2 with
      | error e =>
        rw [hrest] at h
        dsimp only [Except.map] at h
        exact Except.noConfusion h
      | ok sts' =>
        rw [hrest] at h
        dsimp only [Except.map] at h
        cases h
        rw [ih sts' hrest]
        rfl

/-- A scenario whose loop ends normally lets the run move on to the
remaining scenarios. -/
theorem runScenarios_cons_ok (env : OrchestratorEnv) (s' : ℕ) (rest : List ℕ)
    (hok : (runScenario env s').2 = .ok ()) :
    runScenarios env (s' :: rest) =
      ((runScenario env s').1 ++ (runScenarios env rest).1,
       (runScenarios env rest).2) := by
  have h1 : runScenarios env (s' :: rest) =
      match (runScenario env s').2 with
      | Except.error e => ((runScenario env s').1, Except.error e)
      | Except.ok _ =>
        ((runScenario env s').1 ++ (runScenarios env rest).1,
         (runScenarios env rest).2) := rfl
  rw [h1, hok]

/-- Evaluation of the iteration body on an iteration that reaches the
solve phase and finds a non-optimal status: it warns and breaks. -/
theorem iterationBody_infeasible (env : OrchestratorEnv) (s k : ℕ)
    (sts : List PStatus)
    (hk : k ≤ env.maxIterations)
    (hfetch : k > 1 → env.fetchExogenous s = .ok ())
    (hsnap : env.snapshotPrevious s k = .ok ())
    (hsolve : (solveAllSubProblems env s k env.subProblems).2 = .ok sts)
    (hbad : sts.all (fun st => st = .optimal) = false) :
    iterationBody env s k =
      (Event.logIteration s k ::
        ((if k > 1 then [Event.fetchExo s k] else []) ++
          [Event.copyPrevious s k] ++
          (solveAllSubProblems env s k env.subProblems).1 ++
          [Event.warnInfeasible s]),
       .stop) := by
  have hf : (if k > 1 then ([Event.fetchExo s k], env.fetchExogenous s)
      else (([] : List Event), Except.ok ())).2 = Except.ok () := by
    by_cases hk1 : k > 1
    · rw [if_pos hk1]
      exact hfetch hk1
    · rw [if_neg hk1]
  unfold iterationBody
  rw [if_neg (by omega)]
  simp only [hf, hsnap, hsolve, hbad, Bool.not_false, if_true]
  by_cases hk1 : k > 1 <;> simp [hk1, List.append_assoc]

/-- **C2.** In the coupled-solve loop, if an iteration solves all
declared sub-problems in declaration order (one recorded status each)
and any recorded status is not optimal, the iteration breaks without
invoking the endogenous writeback, no exception is raised (the
scenario's loop returns normally from that point), and a scenario loop
that ends normally lets the run continue with the next scenario. -/
theorem infeasible_breaks_without_writeback (env : OrchestratorEnv)
    (s k : ℕ) (sts : List PStatus)
    (hk : k ≤ env.maxIterations)
    (hfetch : k > 1 → env.fetchExogenous s = .ok ())
    (hsnap : env.snapshotPrevious s k = .ok ())
    (hsolve : (solveAllSubProblems env s k env.subProblems).2 = .ok sts)
    (hbad : sts.all (fun st => st = .optimal) = false) :
    (runIteration env s k).2 = .stop ∧
    Event.writeback s k ∉ (runIteration env s k).1 ∧
    (solveAllSubProblems env s k env.subProblems).1 =
      List.zipWith (fun p st => Event.solve s k p st) env.subProblems sts ∧
    (∀ fuel, (scenarioLoop env s (fuel + 1) k).2 = .ok ()) ∧
    (∀ s' rest, (runScenario env s').2 = .ok () →
      runScenarios env (s' :: rest) =
        ((runScenario env s').1 ++ (runScenarios env rest).1,
         (runScenarios env rest).2)) := by
  have hbody := iterationBody_infeasible env s k sts hk hfetch hsnap hsolve hbad
  refine ⟨?_, ?_, solveAllSubProblems_events_eq env s k env.subProblems sts hsolve,
    ?_, ?_⟩
  · unfold runIteration
    rw [hbody]
  · unfold runIteration
    rw [hbody]
    intro hmem
    rw [List.mem_append] at hmem
    rcases hmem with h | h
    · rw [List.mem_cons] at h
      rcases h with h | h
      · exact Event.noConfusion h
      · simp only [List.mem_append] at h
        rcases h with ((h | h) | h) | h
        · by_cases hk1 : k > 1
          · rw [if_pos hk1] at h
            simp at h
          · rw [if_neg hk1] at h
            simp at h
        · simp at h
        · exact solveAllSubProblems_no_writeback env s k s k env.subProblems h
        · simp at h
    · simp at h
  · intro fuel
    show (scenarioLoop env s (fuel + 1) k).2 = Except.ok ()
    unfold scenarioLoop
    simp only [runIteration, hbody]
  · intro s' rest hok
    exact runScenarios_cons_ok env s' rest hok

/-- Witness for C2: the environment whose sub-problem `"p2"` is
infeasible, at scenario 0, iteration 1. -/
theorem infeasible_breaks_without_writeback_witness :
    (runIteration infeasibleEnv 0 1).2 = .stop ∧
    Event.writeback 0 1 ∉ (runIteration infeasibleEnv 0 1).1 ∧
    (solveAllSubProblems infeasibleEnv 0 1 infeasibleEnv.subProblems).1 =
      List.zipWith (fun p st => Event.solve 0 1 p st)
        infeasibleEnv.subProblems [PStatus.optimal, PStatus.infeasible] ∧
    (∀ fuel, (scenarioLoop infeasibleEnv 0 (fuel + 1) 1).2 = .ok ()) ∧
    (∀ s' rest, (runScenario infeasibleEnv s').2 = .ok () →
      runScenarios infeasibleEnv (s' :: rest) =
        ((runScenario infeasibleEnv s').1 ++
          (runScenarios infeasibleEnv rest).1,
         (runScenarios infeasibleEnv rest).2)) :=
  infeasible_breaks_without_writeback infeasibleEnv 0 1
    [PStatus.optimal, PStatus.infeasible]
    (by decide) (fun h => absurd h (by decide)) rfl rfl (by decide)

/-- The solve loop's trace keeps neither snapshot nor writeback
events. -/
theorem filter_solveAll_eq_nil (env : OrchestratorEnv) (s k : ℕ)
    (ps : List String) (pred : Event → Bool)
    (hpred : ∀ s' k' p st, pred (Event.solve s' k' p st) = false) :
    (solveAllSubProblems env s k ps).1.filter pred = [] := by
  induction ps with
  | nil => rfl
  | cons p ps ih =>
    unfold solveAllSubProblems
    cases henv : env.solveSubProblem s k p with
    | error e => rfl
    | ok st => simpa [List.filter_cons, hpred] using ih

/-- Once the iteration counter exceeds the maximum, the body only logs
the iteration, warns, and breaks. -/
theorem iterationBody_maxed (env : OrchestratorEnv) (s k : ℕ)
    (h : k > env.maxIterations) :
    iterationBody env s k =
      ([Event.logIteration s k, Event.warnMaxIterations s], .stop) := by
  unfold iterationBody
  rw [if_pos h]

/-- Any single iteration snapshots the store at most once. -/
theorem solveIterationCount_iterationBody_le (env : OrchestratorEnv)
    (s k : ℕ) :
    solveIterationCount (iterationBody env s k).1 ≤ 1 := by
  have hsolves := filter_solveAll_eq_nil env s k env.subProblems
    isSnapshotEvent (fun _ _ _ _ => rfl)
  unfold iterationBody
  by_cases hmax : k > env.maxIterations
  · rw [if_pos hmax]
    simp [solveIterationCount, isSnapshotEvent]
  · rw [if_neg hmax]
    generalize hX : (if k > 1 then ([Event.fetchExo s k], env.fetchExogenous s)
        else (([] : List Event), Except.ok ())) = fs
    obtain ⟨fevs, fres⟩ := fs
    have hfevs : List.filter isSnapshotEvent fevs = [] := by
      have h1 : fevs = (if k > 1
          then (([Event.fetchExo s k], env.fetchExogenous s) :
            List Event × Except Err Unit)
          else ([], Except.ok ())).1 := by
        rw [hX]
      by_cases hk1 : k > 1 <;> simp [h1, hk1, isSnapshotEvent]
    dsimp only
    cases fres with
    | error e =>
      simp [solveIterationCount, List.filter_cons, hfevs, isSnapshotEvent]
    | ok u =>
      cases hs : env.snapshotPrevious s k with
      | error e =>
        simp [solveIterationCount, List.filter_append, List.filter_cons,
          hfevs, isSnapshotEvent]
      | ok u2 =>
        cases hsol : (solveAllSubProblems env s k env.subProblems).2 with
        | error e =>
          simp [solveIterationCount, List.filter_append, List.filter_cons,
            hfevs, hsolves, isSnapshotEvent]
        | ok sts =>
          cases hall : sts.all (fun st => st = .optimal) with
          | false =>
            simp [hall, solveIterationCount, List.filter_append,
              List.filter_cons, hfevs, hsolves, isSnapshotEvent]
          | true =>
            cases hw : env.writebackEndogenous s k with
            | error e =>
              simp [hall, solveIterationCount, List.filter_append,
                List.filter_cons, hfevs, hsolves, isSnapshotEvent]
            | ok u3 =>
              by_cases hone : k = 1
              · subst hone
                simp [hall, solveIterationCount, List.filter_append,
                  List.filter_cons, hfevs, hsolves, isSnapshotEvent]
              · cases hr : env.relativeDifference s k with
                | error e =>
                  simp [hall, hone, solveIterationCount, List.filter_append,
                    List.filter_cons, hfevs, hsolves, isSnapshotEvent]
                | ok diffs =>
                  cases hab : (diffs.filter
                      (fun p => p.2 > env.tolerance)).isEmpty with
                  | true =>
                    simp [hall, hone, hab, solveIterationCount,
                      List.filter_append, List.filter_cons, hfevs, hsolves,
                      isSnapshotEvent]
                  | false =>
                    simp [hall, hone, hab, solveIterationCount,
                      List.filter_append, List.filter_cons, hfevs, hsolves,
                      isSnapshotEvent]

/-- The per-iteration snapshot deletion does not change the snapshot
count of an iteration's trace. -/
theorem solveIterationCount_runIteration (env : OrchestratorEnv) (s k : ℕ) :
    solveIterationCount (runIteration env s k).1 =
      solveIterationCount (iterationBody env s k).1 := by
  simp [runIteration, solveIterationCount, List.filter_append, isSnapshotEvent]

/-- The scenario loop entered at counter `k` performs at most
`maxIterations + 1 - k` solve iterations, whatever the oracles do. -/
theorem solveIterationCount_scenarioLoop_le (env : OrchestratorEnv) (s : ℕ) :
    ∀ fuel k, solveIterationCount (scenarioLoop env s fuel k).1 ≤
      env.maxIterations + 1 - k := by
  intro fuel
  induction fuel with
  | zero =>
    intro k
    simp [scenarioLoop, solveIterationCount]
  | succ fuel ih =>
    intro k
    unfold scenarioLoop
    by_cases hmax : k > env.maxIterations
    · have hbody := iterationBody_maxed env s k hmax
      simp only [runIteration, hbody]
      simp [solveIterationCount, List.filter_append, List.filter_cons,
        isSnapshotEvent]
    · have hk' : k ≤ env.maxIterations := by omega
      have hle : solveIterationCount (runIteration env s k).1 ≤ 1 := by
        rw [solveIterationCount_runIteration]
        exact solveIterationCount_iterationBody_le env s k
      dsimp only
      cases hout : (runIteration env s k).2 with
      | next =>
        have hrec := ih (k + 1)
        have happ : solveIterationCount ((runIteration env s k).1 ++
            (scenarioLoop env s fuel (k + 1)).1) =
            solveIterationCount (runIteration env s k).1 +
            solveIterationCount (scenarioLoop env s fuel (k + 1)).1 := by
          simp [solveIterationCount, List.filter_append]
        simp only [happ]
        omega
      | stop =>
        simp only []
        omega
      | fail e =>
        simp only []
        omega

/-- When every solve of a round succeeds with status optimal, the solve
loop records exactly one optimal status per declared sub-problem. -/
theorem solveAllSubProblems_all_optimal (env : OrchestratorEnv) (s k : ℕ)
    (ps : List String)
    (h : ∀ p, env.solveSubProblem s k p = .ok .optimal) :
    solveAllSubProblems env s k ps =
      (ps.map (fun p => Event.solve s k p .optimal),
       .ok (ps.map (fun _ => PStatus.optimal))) := by
  induction ps with
  | nil => rfl
  | cons p ps ih =>
    unfold solveAllSubProblems
    rw [h p]
    dsimp only
    rw [ih]
    rfl

/-- Evaluation of the iteration body on a non-final iteration of a
divergent scenario: every solve is optimal, the endogenous results are
written back (exactly one writeback, for this scenario and iteration),
and the loop continues. -/
theorem iterationBody_divergent (env : OrchestratorEnv) (s k : ℕ)
    (hdiv : DivergentScenario env s) (hk : k ≤ env.maxIterations) :
    ∃ evs, iterationBody env s k = (evs, .next) ∧
      writebackCount evs = 1 ∧ Event.writeback s k ∈ evs := by
  obtain ⟨hf, hs, hsolve, hw, hr⟩ := hdiv
  have hsolveAll := solveAllSubProblems_all_optimal env s k env.subProblems
    (hsolve k)
  have hms : (env.subProblems.map
      (fun p => Event.solve s k p PStatus.optimal)).filter
      isWritebackEvent = [] := by
    rw [List.filter_eq_nil_iff]
    intro a ha
    rcases List.mem_map.1 ha with ⟨p, _, rfl⟩
    simp [isWritebackEvent]
  unfold iterationBody
  rw [if_neg (by omega)]
  have hfs : (if k > 1 then ([Event.fetchExo s k], env.fetchExogenous s)
      else (([] : List Event), Except.ok ())) =
      ((if k > 1 then [Event.fetchExo s k] else []), Except.ok ()) := by
    by_cases hk1 : k > 1 <;> simp [hk1, hf]
  rw [hfs]
  dsimp only
  rw [hs k]
  dsimp only
  rw [hsolveAll]
  dsimp only
  have hall : ((env.subProblems.map (fun _ => PStatus.optimal)).all
      (fun st => st = PStatus.optimal)) = true := by
    simp
  rw [hall, hw k]
  dsimp only
  rw [if_neg (by decide)]
  by_cases hone : k = 1
  · rw [if_pos hone]
    refine ⟨_, rfl, ?_, ?_⟩
    · by_cases hk1 : k > 1 <;>
        simp [hk1, writebackCount, List.filter_append, List.filter_cons,
          isWritebackEvent, hms]
    · simp
  · rw [if_neg hone]
    obtain ⟨diffs, hdeq, hne⟩ := hr k
    rw [hdeq]
    dsimp only
    rw [hne]
    rw [if_neg (by decide)]
    refine ⟨_, rfl, ?_, ?_⟩
    · by_cases hk1 : k > 1 <;>
        simp [hk1, writebackCount, List.filter_append, List.filter_cons,
          isWritebackEvent, hms]
    · simp

/-- Loop-level behaviour on a divergent scenario, entered at counter `k`
with exactly the remaining fuel the orchestrator provides: the loop
writes back once per remaining iteration, warns about hitting the
iteration limit, and returns normally. -/
theorem scenarioLoop_divergent (env : OrchestratorEnv) (s : ℕ)
    (hdiv : DivergentScenario env s) :
    ∀ fuel k, k + fuel = env.maxIterations + 2 → 1 ≤ k →
      k ≤ env.maxIterations + 1 →
      (scenarioLoop env s fuel k).2 = .ok () ∧
      Event.warnMaxIterations s ∈ (scenarioLoop env s fuel k).1 ∧
      writebackCount (scenarioLoop env s fuel k).1 =
        env.maxIterations + 1 - k ∧
      (k ≤ env.maxIterations →
        Event.writeback s env.maxIterations ∈ (scenarioLoop env s fuel k).1) := by
  intro fuel
  induction fuel with
  | zero =>
    intro k h1 h2 h3
    omega
  | succ fuel ih =>
    intro k h1 h2 h3
    have hstep : scenarioLoop env s (fuel + 1) k =
        match (runIteration env s k).2 with
        | IterOutcome.next =>
          ((runIteration env s k).1 ++ (scenarioLoop env s fuel (k + 1)).1,
           (scenarioLoop env s fuel (k + 1)).2)
        | IterOutcome.stop => ((runIteration env s k).1, Except.ok ())
        | IterOutcome.fail e => ((runIteration env s k).1, Except.error e) :=
      rfl
    by_cases hmax : k > env.maxIterations
    · have hbody := iterationBody_maxed env s k hmax
      have hout : (runIteration env s k).2 = IterOutcome.stop := by
        simp [runIteration, hbody]
      have htr1 : (runIteration env s k).1 =
          [Event.logIteration s k, Event.warnMaxIterations s,
           Event.erasePrevious s k] := by
        simp [runIteration, hbody]
      have htr : scenarioLoop env s (fuel + 1) k =
          ([Event.logIteration s k, Event.warnMaxIterations s,
            Event.erasePrevious s k], .ok ()) := by
        rw [hstep, hout]
        dsimp only
        rw [htr1]
      rw [htr]
      refine ⟨rfl, by simp, ?_, ?_⟩
      · simp only [writebackCount, List.filter_cons, isWritebackEvent]
        simp [writebackCount, isWritebackEvent]
        omega
      · intro hcontr
        omega
    · have hk : k ≤ env.maxIterations := by omega
      obtain ⟨evs, hbody, hcount, hmem⟩ := iterationBody_divergent env s k hdiv hk
      have hout : (runIteration env s k).2 = IterOutcome.next := by
        simp [runIteration, hbody]
      have htr1 : (runIteration env s k).1 = evs ++ [Event.erasePrevious s k] := by
        simp [runIteration, hbody]
      have htr : scenarioLoop env s (fuel + 1) k =
          ((evs ++ [Event.erasePrevious s k]) ++
            (scenarioLoop env s fuel (k + 1)).1,
           (scenarioLoop env s fuel (k + 1)).2) := by
        rw [hstep, hout]
        dsimp only
        rw [htr1]
      obtain ⟨hrec1, hrec2, hrec3, hrec4⟩ := ih (k + 1) (by omega) (by omega)
        (by omega)
      rw [htr]
      refine ⟨hrec1, ?_, ?_, ?_⟩
      · exact List.mem_append.2 (Or.inr hrec2)
      · have hc : writebackCount ((evs ++ [Event.erasePrevious s k]) ++
            (scenarioLoop env s fuel (k + 1)).1) =
            writebackCount evs +
            writebackCount (scenarioLoop env s fuel (k + 1)).1 := by
          simp [writebackCount, List.filter_append, isWritebackEvent]
        rw [hc, hcount, hrec3]
        omega
      · intro _
        by_cases hlast : k = env.maxIterations
        · subst hlast
          exact List.mem_append.2 (Or.inl (List.mem_append.2 (Or.inl hmem)))
        · exact List.mem_append.2 (Or.inr (hrec4 (by omega)))

/-- **C3.** For every scenario the coupled-solve loop performs at most
`maximum_iterations` solve iterations; once the counter exceeds the
maximum the body logs the iteration, warns and breaks; and on a
divergent scenario (all solves optimal, relative difference never within
tolerance) the loop terminates normally — warning recorded, no exception
— after exactly `maximum_iterations` writebacks, the last iteration's
writeback included (the non-converged state stays persisted). -/
theorem max_iterations_spec (env : OrchestratorEnv) (s : ℕ) :
    solveIterationCount (runScenario env s).1 ≤ env.maxIterations ∧
    (∀ k, k > env.maxIterations →
      iterationBody env s k =
        ([Event.logIteration s k, Event.warnMaxIterations s], .stop)) ∧
    (DivergentScenario env s → 1 ≤ env.maxIterations →
      (runScenario env s).2 = .ok () ∧
      Event.warnMaxIterations s ∈ (runScenario env s).1 ∧
      writebackCount (runScenario env s).1 = env.maxIterations ∧
      Event.writeback s env.maxIterations ∈ (runScenario env s).1) := by
  refine ⟨?_, fun k hk => iterationBody_maxed env s k hk, ?_⟩
  · have h := solveIterationCount_scenarioLoop_le env s
      (env.maxIterations + 1) 1
    simpa [runScenario] using h
  · intro hdiv hone
    have h := scenarioLoop_divergent env s hdiv (env.maxIterations + 1) 1
      (by omega) (by omega) (by omega)
    obtain ⟨h1, h2, h3, h4⟩ := h
    exact ⟨h1, h2, by simpa using h3, h4 hone⟩

/-- Witness for C3 on the sample oscillating environment
(`maxIterations = 3`, tolerance 0, constant unit difference). -/
theorem max_iterations_spec_witness :
    (solveIterationCount (runScenario sampleEnv 0).1 ≤
      sampleEnv.maxIterations ∧
     (∀ k, k > sampleEnv.maxIterations →
      iterationBody sampleEnv 0 k =
        ([Event.logIteration 0 k, Event.warnMaxIterations 0], .stop)) ∧
     (DivergentScenario sampleEnv 0 → 1 ≤ sampleEnv.maxIterations →
      (runScenario sampleEnv 0).2 = .ok () ∧
      Event.warnMaxIterations 0 ∈ (runScenario sampleEnv 0).1 ∧
      writebackCount (runScenario sampleEnv 0).1 = sampleEnv.maxIterations ∧
      Event.writeback 0 sampleEnv.maxIterations ∈ (runScenario sampleEnv 0).1)) ∧
    DivergentScenario sampleEnv 0 ∧ 1 ≤ sampleEnv.maxIterations :=
  ⟨max_iterations_spec sampleEnv 0,
   ⟨rfl, fun _ => rfl, fun _ _ => rfl, fun _ => rfl,
    fun _ => ⟨[("t", 1)], rfl, by decide⟩⟩,
   by decide⟩

/-- Round-half-to-even sits within one half of its argument. -/
theorem roundHalfEven_bounds (x : ℝ) :
    x - 1 / 2 ≤ ((roundHalfEven x : ℤ) : ℝ) ∧
    ((roundHalfEven x : ℤ) : ℝ) ≤ x + 1 / 2 := by
  unfold roundHalfEven
  by_cases hf : Int.fract x = 1 / 2
  · rw [if_pos hf]
    have hx : x = (⌊x⌋ : ℝ) + 1 / 2 := by
      conv_lhs => rw [← Int.floor_add_fract x]
      rw [hf]
    rcases Int.even_or_odd ⌊x⌋ with ⟨m, hm⟩ | ⟨m, hm⟩
    · have hx2 : x / 2 = 1 / 4 + (m : ℝ) := by
        rw [hx, hm]
        push_cast
        ring
      have hr : round (x / 2) = m := by
        rw [hx2, round_add_int]
        norm_num [round_eq]
      rw [hr]
      constructor <;>
      · rw [hx, hm]
        push_cast
        linarith
    · have hx2 : x / 2 = 3 / 4 + (m : ℝ) := by
        rw [hx, hm]
        push_cast
        ring
      have hr : round (x / 2) = 1 + m := by
        rw [hx2, round_add_int]
        norm_num [round_eq]
      rw [hr]
      constructor <;>
      · rw [hx, hm]
        push_cast
        linarith
  · rw [if_neg hf]
    exact ⟨(sub_half_lt_round x).le, round_le_add_half x⟩

/-- Round-half-to-even of a nonnegative number is nonnegative. -/
theorem roundHalfEven_nonneg (x : ℝ) (hx : 0 ≤ x) : 0 ≤ roundHalfEven x := by
  have hb := (roundHalfEven_bounds x).1
  by_contra h
  push_neg at h
  have h1 : roundHalfEven x ≤ -1 := by omega
  have h2 : ((roundHalfEven x : ℤ) : ℝ) ≤ -1 := by exact_mod_cast h1
  linarith

/-- Round-half-to-even of anything above one half is positive. -/
theorem roundHalfEven_pos (x : ℝ) (hx : 1 / 2 < x) : 0 < roundHalfEven x := by
  have hb := (roundHalfEven_bounds x).1
  by_contra h
  push_neg at h
  have h1 : roundHalfEven x ≤ 0 := by omega
  have h2 : ((roundHalfEven x : ℤ) : ℝ) ≤ 0 := by exact_mod_cast h1
  linarith

/-- Decimal rounding preserves nonnegativity. -/
theorem npRound_nonneg (d : ℕ) (x : ℝ) (hx : 0 ≤ x) : 0 ≤ npRound d x := by
  unfold npRound
  have h1 : (0 : ℝ) ≤ ((roundHalfEven (x * 10 ^ d) : ℤ) : ℝ) := by
    exact_mod_cast roundHalfEven_nonneg _ (mul_nonneg hx (by positivity))
  positivity

/-- Decimal rounding of a value whose scaled form exceeds one half is
positive. -/
theorem npRound_pos (d : ℕ) (x : ℝ) (h : 1 / 2 < x * 10 ^ d) :
    0 < npRound d x := by
  unfold npRound
  have h1 : (0 : ℝ) < ((roundHalfEven (x * 10 ^ d) : ℤ) : ℝ) := by
    exact_mod_cast roundHalfEven_pos _ h
  positivity

/-- The Weibull density is nonnegative for admissible parameters. -/
theorem weibullDensity_nonneg (sc sh x : ℝ) (hsc : 0 < sc) (hsh : 0 ≤ sh)
    (hx : 0 ≤ x) : 0 ≤ weibullDensity sc sh x := by
  unfold weibullDensity
  have h1 : 0 ≤ sh / sc := div_nonneg hsh hsc.le
  have h2 : (0 : ℝ) ≤ (x / sc) ^ (sh - 1) :=
    Real.rpow_nonneg (div_nonneg hx hsc.le) _
  exact mul_nonneg (mul_nonneg h1 h2) (Real.exp_pos _).le

/-- Dividing every entry divides the sum. -/
theorem list_sum_map_div (l : List ℝ) (c : ℝ) :
    (l.map (fun v => v / c)).sum = l.sum / c := by
  induction l with
  | nil => simp
  | cons a l ih => simp [ih, add_div]

/-- The Weibull computation range is never shorter than the range
vector. -/
theorem weibRange_ge (sc : ℝ) (n : ℕ) : n ≤ weibRange sc n := by
  unfold weibRange
  split
  · exact le_refl n
  · next h => omega

/-- The `dimensions=1` output always has one entry per range item. -/
theorem weibull_dim1_length (sc sh : ℝ) (n rounding : ℕ) :
    (weibull_distribution_dim1 sc sh n rounding).length = n := by
  unfold weibull_distribution_dim1 roundedWeibullList rawWeibullList
  simp only [List.length_take, List.length_map, List.length_range]
  exact Nat.min_eq_left (weibRange_ge sc n)

/-- **C1, amended.** For a positive scale `s` and shape `k` and a range
of length `n > 0`: the `dimensions=1` output has length `n`; its entries
sum to 1 whenever the computation range equals `n` (no truncation, i.e.
`2*int(s) ≤ n`) and the rounded density mass is nonzero; and the
`dimensions=2` output is the `n × n` matrix whose column `c` is the
vector shifted down by `c` positions with its first `c` entries set to
zero. -/
theorem weibull_distribution_spec (sc sh : ℝ) (n rounding : ℕ) (hn : 0 < n)
    (hrange : weibRange sc n = n)
    (hsum : (roundedWeibullList sc sh rounding n).sum ≠ 0) :
    (weibull_distribution_dim1 sc sh n rounding).length = n ∧
    (weibull_distribution_dim1 sc sh n rounding).sum = 1 ∧
    (∀ r c, r < n → c < n →
      weibull_distribution_dim2 sc sh n rounding r c =
        if r < c then 0
        else (weibull_distribution_dim1 sc sh n rounding).getD (r - c) 0) := by
  refine ⟨weibull_dim1_length sc sh n rounding, ?_, ?_⟩
  · have hlen : (roundedWeibullList sc sh rounding n).length = n := by
      unfold roundedWeibullList rawWeibullList
      simp [hrange]
    unfold weibull_distribution_dim1
    rw [List.take_of_length_le (by simp [hlen])]
    rw [list_sum_map_div]
    exact div_self hsum
  · intro r c hr hc
    unfold weibull_distribution_dim2
    by_cases hrc : r < c
    · rw [if_pos hrc, if_pos hrc]
    · rw [if_neg hrc, if_neg hrc]
      have hcn : c % n = c := Nat.mod_eq_of_lt hc
      have h2 : r + n - c = (r - c) + n := by omega
      have h3 : ((r - c) + n) % n = (r - c) % n := Nat.add_mod_right _ _
      have h4 : (r - c) % n = r - c := Nat.mod_eq_of_lt (by omega)
      rw [hcn, h2, h3, h4]

/-- Witness for C1 (amended) at `scale = 1`, `shape = 1`, a range of
length 2 and the default rounding of 2 decimals. -/
theorem weibull_distribution_spec_witness :
    (0 < 2) ∧ weibRange (1 : ℝ) 2 = 2 ∧
    (roundedWeibullList 1 1 2 2).sum ≠ 0 ∧
    ((weibull_distribution_dim1 1 1 2 2).length = 2 ∧
     (weibull_distribution_dim1 1 1 2 2).sum = 1 ∧
     (∀ r c, r < 2 → c < 2 →
      weibull_distribution_dim2 1 1 2 2 r c =
        if r < c then 0
        else (weibull_distribution_dim1 1 1 2 2).getD (r - c) 0)) := by
  have hrange : weibRange (1 : ℝ) 2 = 2 := by
    unfold weibRange truncInt
    norm_num
  have hd1 : weibullDensity 1 1 1 = Real.exp (-1) := by
    unfold weibullDensity
    norm_num [Real.rpow_zero, Real.one_rpow]
  have hd2 : weibullDensity 1 1 2 = Real.exp (-2) := by
    unfold weibullDensity
    norm_num [Real.rpow_zero, Real.rpow_one]
  have hlist : roundedWeibullList 1 1 2 2 =
      [npRound 2 (weibullDensity 1 1 1), npRound 2 (weibullDensity 1 1 2)] := by
    unfold roundedWeibullList rawWeibullList
    rw [hrange]
    norm_num [List.range_succ]
  have he1 : (1 : ℝ) / 200 < Real.exp (-1) := by
    have he : Real.exp 1 < 200 := lt_trans Real.exp_one_lt_d9 (by norm_num)
    rw [Real.exp_neg, inv_eq_one_div]
    exact one_div_lt_one_div_of_lt (Real.exp_pos 1) he
  have ht1 : 0 < npRound 2 (weibullDensity 1 1 1) := by
    refine npRound_pos 2 _ ?_
    rw [hd1]
    norm_num
    linarith
  have ht2 : 0 ≤ npRound 2 (weibullDensity 1 1 2) := by
    refine npRound_nonneg 2 _ ?_
    rw [hd2]
    exact (Real.exp_pos _).le
  have hsum : (roundedWeibullList 1 1 2 2).sum ≠ 0 := by
    rw [hlist]
    simp only [List.sum_cons, List.sum_nil, add_zero]
    exact ne_of_gt (by linarith)
  exact ⟨by norm_num, hrange, hsum,
    weibull_distribution_spec 1 1 2 2 (by norm_num) hrange hsum⟩

/-- **C1, counterexample.** At `scale = 2`, `shape = 1`, a range of
length 1 and the default 2-decimal rounding, the computation range is 4
and the returned vector is a truncation of the renormalized density
whose dropped tail has positive rounded mass: at this instance its
entries sum to strictly less than 1 — refuting the claimed sum of 1.0
for every positive scale and shape. -/
theorem weibull_truncation_breaks_normalization :
    (weibull_distribution_dim1 2 1 1 2).sum < 1 ∧
    (weibull_distribution_dim1 2 1 1 2).sum ≠ 1 := by
  have hrange : weibRange (2 : ℝ) 1 = 4 := by
    unfold weibRange truncInt
    norm_num
    decide
  have hd : ∀ i : ℝ, weibullDensity 2 1 i = 1 / 2 * Real.exp (-(i / 2)) := by
    intro i
    unfold weibullDensity
    norm_num [Real.rpow_zero, Real.rpow_one]
  have hlist : roundedWeibullList 2 1 2 1 =
      [npRound 2 (weibullDensity 2 1 1), npRound 2 (weibullDensity 2 1 2),
       npRound 2 (weibullDensity 2 1 3), npRound 2 (weibullDensity 2 1 4)] := by
    unfold roundedWeibullList rawWeibullList
    rw [hrange]
    norm_num [List.range_succ]
  have hr1 : 0 ≤ npRound 2 (weibullDensity 2 1 1) := by
    refine npRound_nonneg 2 _ ?_
    rw [hd 1]
    positivity
  have hr2 : 0 ≤ npRound 2 (weibullDensity 2 1 2) := by
    refine npRound_nonneg 2 _ ?_
    rw [hd 2]
    positivity
  have hr3 : 0 ≤ npRound 2 (weibullDensity 2 1 3) := by
    refine npRound_nonneg 2 _ ?_
    rw [hd 3]
    positivity
  have he2 : Real.exp 2 < 100 := by
    have h1 := Real.exp_one_lt_d9
    have h2 : Real.exp 2 = Real.exp 1 * Real.exp 1 := by
      rw [← Real.exp_add]
      norm_num
    nlinarith [Real.exp_pos 1]
  have hgt : (1 : ℝ) / 100 < Real.exp (-2) := by
    rw [Real.exp_neg, inv_eq_one_div]
    exact one_div_lt_one_div_of_lt (Real.exp_pos 2) he2
  have hr4 : 0 < npRound 2 (weibullDensity 2 1 4) := by
    refine npRound_pos 2 _ ?_
    rw [hd 4]
    norm_num
    linarith
  have hv : weibull_distribution_dim1 2 1 1 2 =
      [npRound 2 (weibullDensity 2 1 1) / (roundedWeibullList 2 1 2 1).sum] := by
    unfold weibull_distribution_dim1
    rw [hlist]
    rfl
  have hS : (roundedWeibullList 2 1 2 1).sum =
      npRound 2 (weibullDensity 2 1 1) + npRound 2 (weibullDensity 2 1 2) +
      npRound 2 (weibullDensity 2 1 3) + npRound 2 (weibullDensity 2 1 4) := by
    rw [hlist]
    simp only [List.sum_cons, List.sum_nil]
    ring
  have hSpos : 0 < (roundedWeibullList 2 1 2 1).sum := by
    rw [hS]
    linarith
  have hlt : npRound 2 (weibullDensity 2 1 1) <
      (roundedWeibullList 2 1 2 1).sum := by
    rw [hS]
    linarith
  have hsumv : (weibull_distribution_dim1 2 1 1 2).sum =
      npRound 2 (weibullDensity 2 1 1) / (roundedWeibullList 2 1 2 1).sum := by
    rw [hv]
    simp
  rw [hsumv]
  have hfinal : npRound 2 (weibullDensity 2 1 1) /
      (roundedWeibullList 2 1 2 1).sum < 1 :=
    (div_lt_one hSpos).2 hlt
  exact ⟨hfinal, ne_of_lt hfinal⟩

end CvxLab
